import Mathlib

set_option autoImplicit false

/-!
Shallow embedding of the message-storage core of the leap_mail repository
(files src/leap/mail/imap/memorystore.py, mailbox.py, account.py and
src/leap/mail/walk.py), together with proofs about the embedded operations.

Python dicts keyed by strings or (mbox, uid) pairs are modelled as
association lists; Python sets as lists (membership is what matters);
exceptions as an `Except` error type.  Every definition mirrors one source
function and is annotated with the file and function it embeds.
-/

/-! ### Association-list helpers (Python dict operations) -/

def alistFind {α β : Type} [DecidableEq α] : List (α × β) → α → Option β
  | [], _ => none
  | (k0, v) :: rest, k => if k0 = k then some v else alistFind rest k

def alistSet {α β : Type} [DecidableEq α] : List (α × β) → α → β → List (α × β)
  | [], k, v => [(k, v)]
  | (k0, v0) :: rest, k, v =>
      if k0 = k then (k0, v) :: rest else (k0, v0) :: alistSet rest k v

theorem alistFind_alistSet {α β : Type} [DecidableEq α]
    (l : List (α × β)) (k : α) (v : β) : alistFind (alistSet l k v) k = some v := by
  induction l with
  | nil => simp [alistSet, alistFind]
  | cons hd tl ih =>
      by_cases h : hd.1 = k
      · simp [alistSet, alistFind, h]
      · simp [alistSet, alistFind, h, ih]

/-! ### Python exceptions -/

inductive PyError where
  | keyError
  | typeError
  | attributeError
  | indexError
  | valueError
  | nameError
  | readOnlyMailbox
  | mailboxException
  | fuelExhausted
deriving DecidableEq, Repr

/-! ### Data model: flags documents and message dicts

In the source an fdoc is a dict; every fdoc the system builds carries the
fields.py keys `flags`, `uid`, `mbox` and `chash`, so it is modelled as a
record with those fields.  A weak-referenced fdoc whose referent has been
emptied is modelled by the `emptyDoc` constructor of `FdocContent`. -/

def DELETED_FLAG : String := "\\Deleted"

structure Fdoc where
  flags : List String
  uid : Nat
  mbox : String
  chash : String
deriving DecidableEq, Repr

inductive FdocContent where
  | emptyDoc
  | doc (f : Fdoc)
deriving DecidableEq, Repr

/-- Modelled from the spec: the helper `leap.mail.utils.empty` is imported by
memorystore.py but utils.py is not under src/.  Per the spec's wording for
`get_fdoc_from_chash` ("or none if absent"), a thing is empty when it is
Python None or a zero-length collection. -/
def emptyFdocContent : FdocContent → Bool
  | .emptyDoc => true
  | .doc _ => false

/-- Emptiness of `docs_dict.get(mbox, None) if docs_dict else None`:
Python None (absent) and the empty dict are both empty. -/
def emptyOptFdoc : Option FdocContent → Bool
  | none => true
  | some c => emptyFdocContent c

/-- The part tag carried by a MessagePartDoc (messageparts.MessagePartType). -/
inductive MessagePartType where
  | fdocPart
  | hdocPart
  | cdocPart
deriving DecidableEq, Repr

/-- Embeds messageparts.MessagePartDoc, the namedtuple returned by
MemoryStore.get_fdoc_from_chash. -/
structure MessagePartDoc where
  new : Bool
  dirty : Bool
  store : String
  part : MessagePartType
  content : FdocContent
  doc_id : Option String
deriving DecidableEq, Repr

/-- One entry of MemoryStore._msg_store: the claims only read the fdoc slot
of the per-message dict, so the hdoc/cdocs slots are not represented. -/
structure MsgDict where
  fdoc : Option Fdoc
deriving DecidableEq, Repr

/-- Modelled from the spec: the permanent store (SoledadStore,
soledadstore.py is not under src/).  The spec describes its part in
expunge as "delete-deleted on permanent store": it drops every message of
the mailbox whose flags contain Deleted and reports their UIDs. -/
structure PermanentStore where
  msgs : List ((String × Nat) × List String)
deriving DecidableEq, Repr

def PermanentStore.remove_all_deleted (p : PermanentStore) (mbox : String) :
    List Nat × PermanentStore :=
  let deleted := p.msgs.filterMap
    (fun e => if e.1.1 = mbox ∧ DELETED_FLAG ∈ e.2 then some e.1.2 else none)
  (deleted,
   ⟨p.msgs.filter (fun e => decide (¬ (e.1.1 = mbox ∧ DELETED_FLAG ∈ e.2)))⟩)

/-! ### MemoryStore state (memorystore.py)

Fields mirror the attributes set in MemoryStore.__init__ that the claims
touch: `_msg_store`, `_chash_fdoc_store`, `_last_uid`, `_new`, `_dirty`,
the write-loop flag, and the optional permanent store.  `perm_uid_writes`
records the write-throughs issued by `write_last_uid`. -/

structure MemoryStore where
  msg_store : List ((String × Nat) × MsgDict)
  chash_fdoc_store : List (String × List (String × FdocContent))
  last_uid : List (String × Nat)
  new : List (String × Nat)
  dirty : List (String × Nat)
  write_loop_running : Bool
  permanent_store : Option PermanentStore
  perm_uid_writes : List (String × Nat)
deriving DecidableEq, Repr

/-- Embeds MemoryStore.get_last_soledad_uid: `self._last_uid.get(mbox, 0)`. -/
def MemoryStore.get_last_soledad_uid (s : MemoryStore) (mbox : String) : Nat :=
  (alistFind s.last_uid mbox).getD 0

/-- Embeds MemoryStore.set_last_soledad_uid.  The guard in the source is
`if not self._last_uid.get(mbox, None)`: an absent entry and a cached 0 are
both falsy, so either is overwritten; any other cached value wins. -/
def MemoryStore.set_last_soledad_uid (s : MemoryStore) (mbox : String) (value : Nat) :
    MemoryStore :=
  match alistFind s.last_uid mbox with
  | none => { s with last_uid := alistSet s.last_uid mbox value }
  | some v =>
      if v = 0 then { s with last_uid := alistSet s.last_uid mbox value } else s

/-- Embeds MemoryStore.write_last_uid (sans the defer-to-thread wrapper):
`if self._permanent_store: self._permanent_store.write_last_uid(mbox, value)`.
The write-through is recorded in `perm_uid_writes`. -/
def MemoryStore.write_last_uid (s : MemoryStore) (mbox : String) (value : Nat) :
    MemoryStore :=
  match s.permanent_store with
  | some _ => { s with perm_uid_writes := s.perm_uid_writes ++ [(mbox, value)] }
  | none => s

/-- Embeds MemoryStore.increment_last_soledad_uid:
`self._last_uid[mbox] += 1` raises KeyError when the mailbox has no cached
entry; otherwise the incremented value is cached, written through, and
returned. -/
def MemoryStore.increment_last_soledad_uid (s : MemoryStore) (mbox : String) :
    Except PyError (Nat × MemoryStore) :=
  match alistFind s.last_uid mbox with
  | none => .error .keyError
  | some v =>
      let value := v + 1
      let s1 := { s with last_uid := alistSet s.last_uid mbox value }
      .ok (value, s1.write_last_uid mbox value)

/-- Embeds MemoryStore.count_new_mbox.  The comprehension filter in the
source is `if mbox == mbox`, comparing the argument with itself. -/
def MemoryStore.count_new_mbox (s : MemoryStore) (mbox : String) : Nat :=
  (s.new.filter (fun _mu => decide (mbox = mbox))).length

/-- Embeds MemoryStore.count_new: `len(self._new)`. -/
def MemoryStore.count_new (s : MemoryStore) : Nat :=
  s.new.length

/-- The double index lookup opening MemoryStore.get_fdoc_from_chash:
`docs_dict = self._chash_fdoc_store.get(chash, None)` followed by
`fdoc = docs_dict.get(mbox, None) if docs_dict else None`. -/
def chashIndexedFdoc (s : MemoryStore) (chash mbox : String) : Option FdocContent :=
  match alistFind s.chash_fdoc_store chash with
  | some docs_dict => alistFind docs_dict mbox
  | none => none

/-- Embeds MemoryStore.get_fdoc_from_chash: look up the chash index, then
the mailbox; return None when the result is absent or empty, None when its
flags contain Deleted, and otherwise a MessagePartDoc wrapping the fdoc
with the new/dirty state of its (mbox, uid) key. -/
def MemoryStore.get_fdoc_from_chash (s : MemoryStore) (chash mbox : String) :
    Option MessagePartDoc :=
  let fdoc : Option FdocContent := chashIndexedFdoc s chash mbox
  if emptyOptFdoc fdoc then none
  else
    match fdoc with
    | some (.doc f) =>
        if DELETED_FLAG ∈ f.flags then none
        else
          some { new := decide ((mbox, f.uid) ∈ s.new),
                 dirty := decide ((mbox, f.uid) ∈ s.dirty),
                 store := "mem",
                 part := .fdocPart,
                 content := .doc f,
                 doc_id := none }
    | _ => none

/-- Embeds MemoryStore.remove_message: discard the key from the new and
dirty sets and pop the entry from the message store.  A dict pop removes
the unique entry with that key; on an association list this is a filter. -/
def MemoryStore.remove_message (s : MemoryStore) (mbox : String) (uid : Nat) :
    MemoryStore :=
  { s with new := s.new.filter (fun k => decide (k ≠ (mbox, uid))),
           dirty := s.dirty.filter (fun k => decide (k ≠ (mbox, uid))),
           msg_store := s.msg_store.filter (fun e => decide (e.1 ≠ (mbox, uid))) }

/-- Embeds MemoryStore.all_msg_dict_for_mbox: the message dicts whose key
names the given mailbox. -/
def MemoryStore.all_msg_dict_for_mbox (s : MemoryStore) (mbox : String) :
    List MsgDict :=
  s.msg_store.filterMap (fun e => if e.1.1 = mbox then some e.2 else none)

/-- Embeds MemoryStore.all_deleted_uid_iter: the uid field of every fdoc of
the mailbox whose flags contain Deleted (`msg['fdoc']['uid']` guarded by
`msg.get('fdoc', None)`). -/
def MemoryStore.all_deleted_uid_iter (s : MemoryStore) (mbox : String) : List Nat :=
  (s.all_msg_dict_for_mbox mbox).filterMap
    (fun m => match m.fdoc with
              | some f => if DELETED_FLAG ∈ f.flags then some f.uid else none
              | none => none)

/-- Embeds MemoryStore.remove_all_deleted: collect the deleted uids first
(the source insists the sequence is fixed before mutation), then call
remove_message on each; the collected list is also the return value. -/
def MemoryStore.remove_all_deleted (s : MemoryStore) (mbox : String) :
    List Nat × MemoryStore :=
  let mem_deleted := s.all_deleted_uid_iter mbox
  (mem_deleted, mem_deleted.foldl (fun acc uid => acc.remove_message mbox uid) s)

/-- Embeds MemoryStore._stop_write_loop: stop the LoopingCall if running. -/
def MemoryStore.stop_write_loop (s : MemoryStore) : MemoryStore :=
  if s.write_loop_running then { s with write_loop_running := false } else s

/-- Embeds MemoryStore._start_write_loop: start the LoopingCall if stopped. -/
def MemoryStore.start_write_loop (s : MemoryStore) : MemoryStore :=
  if s.write_loop_running then s else { s with write_loop_running := true }

/-- The externally visible actions of MemoryStore.expunge, in the order the
method performs them. -/
inductive ExpungeEvent where
  | stopWriteLoop
  | permanentDelete (uids : List Nat)
  | memoryDelete (uids : List Nat)
  | startWriteLoop
deriving DecidableEq, Repr

/-- The uids removed by the permanent-store half of expunge:
`soledad_store.remove_all_deleted(mbox)` when a permanent store is set,
`[]` otherwise. -/
def MemoryStore.sol_deleted (s : MemoryStore) (mbox : String) : List Nat :=
  match s.permanent_store with
  | some p => (p.remove_all_deleted mbox).1
  | none => []

/-- Embeds MemoryStore.expunge: stop the write loop, delete the
Deleted-flagged messages from the permanent store, then from memory,
restart the loop, and return `set(mem_deleted).union(set(sol_deleted))`.
The event list records the order of the externally visible steps. -/
def MemoryStore.expunge (s : MemoryStore) (mbox : String) :
    List ExpungeEvent × List Nat × MemoryStore :=
  let s1 := s.stop_write_loop
  let solRes : List Nat × Option PermanentStore :=
    match s1.permanent_store with
    | some p =>
        let r := p.remove_all_deleted mbox
        (r.1, some r.2)
    | none => ([], none)
  let s2 := { s1 with permanent_store := solRes.2 }
  let memRes := s2.remove_all_deleted mbox
  let all_deleted := memRes.1.union solRes.1
  let s3 := memRes.2.start_write_loop
  ([.stopWriteLoop, .permanentDelete solRes.1, .memoryDelete memRes.1,
    .startWriteLoop],
   all_deleted, s3)

/-! ### Mailbox surface (mailbox.py) -/

/-- The SoledadMailbox attributes the claims depend on: the parsed mailbox
name and the read-write flag passed to the constructor. -/
structure SoledadMailbox where
  mbox : String
  rw : Nat
deriving DecidableEq, Repr

/-- Embeds SoledadMailbox.isWriteable: `return self.rw`. -/
def SoledadMailbox.isWriteable (mb : SoledadMailbox) : Nat :=
  mb.rw

/-- Result of a successful SoledadMailbox.store call: the method only
schedules `_do_store` through deferLater and returns a deferred, touching
no flag state itself. -/
inductive StoreOutcome where
  | scheduledDoStore
deriving DecidableEq, Repr

/-- Embeds SoledadMailbox.store: raise ReadOnlyMailbox when the mailbox is
not writeable (`if not self.isWriteable()`), otherwise schedule _do_store
and return the observer deferred.  The arguments mirror the signature
(messages_asked, flags, mode, uid); none of them is read before the
read-only check. -/
def SoledadMailbox.store (mb : SoledadMailbox) (ms : MemoryStore)
    (_messages_asked : List Nat) (_flags : List String) (_mode : Int)
    (_uid : Bool) : Except PyError StoreOutcome × MemoryStore :=
  if mb.isWriteable = 0 then (.error .readOnlyMailbox, ms)
  else (.ok .scheduledDoStore, ms)

/-- Embeds SoledadMailbox.expunge: raise ReadOnlyMailbox when the mailbox
is not writeable.  Otherwise the source calls
`self._memstore.expunge(self.mbox, d)` with an observer argument that
MemoryStore.expunge in this tree does not accept, so the call raises
TypeError before touching any state. -/
def SoledadMailbox.expunge (mb : SoledadMailbox) (ms : MemoryStore) :
    Except PyError Unit × MemoryStore :=
  if mb.isWriteable = 0 then (.error .readOnlyMailbox, ms)
  else (.error .typeError, ms)

/-- The LeapMessage attributes read by SoledadMailbox._do_copy: the
contents of its `_fdoc` and `_hdoc` document wrappers (either may be
None). -/
structure LeapMessage where
  fdoc : Option Fdoc
  hdoc : Option Unit
deriving DecidableEq, Repr

/-- What SoledadMailbox._do_copy did with the observer deferred. -/
inductive CopyOutcome where
  | noFdocWarning
  | observerFired (success : Bool)
deriving DecidableEq, Repr

/-- Embeds SoledadMailbox._do_copy.  With no fdoc it logs and returns
(never firing the observer).  Otherwise it deep-copies the fdoc content,
asks get_fdoc_from_chash for a duplicate in the destination mailbox, and
when one exists (`exist = dest_fdoc and not empty(dest_fdoc.content)`)
fires the observer with True and stops.  In the non-duplicate branch it
increments the destination last-uid and then calls
`memstore.create_message(..., observer=observer, ...)`; the hdoc access
raises AttributeError when `_hdoc` is None, and otherwise the call itself
raises TypeError because MemoryStore.create_message in this tree accepts
no observer keyword. -/
def SoledadMailbox.do_copy (mb : SoledadMailbox) (ms : MemoryStore)
    (message : LeapMessage) : Except PyError CopyOutcome × MemoryStore :=
  match message.fdoc with
  | none => (.ok .noFdocWarning, ms)
  | some fdocContent =>
      let new_fdoc := fdocContent
      let fdoc_chash := new_fdoc.chash
      let dest_fdoc := ms.get_fdoc_from_chash fdoc_chash mb.mbox
      let exist : Bool :=
        match dest_fdoc with
        | some d => ! emptyFdocContent d.content
        | none => false
      if exist then (.ok (.observerFired true), ms)
      else
        match ms.increment_last_soledad_uid mb.mbox with
        | .error e => (.error e, ms)
        | .ok (_uid_next, ms1) =>
            match message.hdoc with
            | none => (.error .attributeError, ms1)
            | some _ => (.error .typeError, ms1)

/-! ### Account subscriptions (account.py) -/

/-- The SoledadBackedAccount attributes relevant to unsubscribe.  The
`subscriptions` attribute is read by check_and_unsubscribe but is never
assigned anywhere in account.py nor provided by the WithMsgFields,
IndexedDB or MBoxParser mixins (per the spec, no such attribute exists in
the class), so it is an attribute slot that construction leaves absent. -/
structure SoledadBackedAccount where
  mailboxes : List String
  subscriptions : Option (List String)
deriving DecidableEq, Repr

/-- Embeds SoledadBackedAccount.__init__ as far as the unsubscribe claim
needs it: no statement assigns the `subscriptions` attribute. -/
def mkSoledadBackedAccount (mailboxes : List String) : SoledadBackedAccount :=
  { mailboxes := mailboxes, subscriptions := none }

/-- Embeds the check_and_unsubscribe callback inside
SoledadBackedAccount.unsubscribe: it tests
`if name not in self.subscriptions` before raising the
"Not currently subscribed" MailboxException; reading the absent attribute
raises AttributeError first.  The `subscriptions` parameter is the value
the enclosing deferred received from _get_subscriptions(). -/
def SoledadBackedAccount.check_and_unsubscribe (acct : SoledadBackedAccount)
    (name : String) (_subscriptions : List String) : Except PyError Unit :=
  match acct.subscriptions with
  | none => .error .attributeError
  | some attr => if name ∉ attr then .error .mailboxException else .ok ()

/-- Embeds SoledadBackedAccount.unsubscribe: parse the name (taken here
already canonical since parser.py is not under src/), fetch the current
subscriptions, and run check_and_unsubscribe on the fetched list. -/
def SoledadBackedAccount.unsubscribe (acct : SoledadBackedAccount)
    (name : String) (fetched_subscriptions : List String) : Except PyError Unit :=
  acct.check_and_unsubscribe name fetched_subscriptions

/-! ### Helper lemmas -/

theorem write_last_uid_last_uid (s : MemoryStore) (mbox : String) (value : Nat) :
    (s.write_last_uid mbox value).last_uid = s.last_uid := by
  unfold MemoryStore.write_last_uid
  cases s.permanent_store <;> simp

theorem increment_last_uid_step (s : MemoryStore) (mbox : String) (v : Nat)
    (h : alistFind s.last_uid mbox = some v) :
    ∃ s1, s.increment_last_soledad_uid mbox = .ok (v + 1, s1) ∧
      alistFind s1.last_uid mbox = some (v + 1) := by
  refine ⟨MemoryStore.write_last_uid
    { s with last_uid := alistSet s.last_uid mbox (v + 1) } mbox (v + 1), ?_, ?_⟩
  · simp [MemoryStore.increment_last_soledad_uid, h]
  · rw [write_last_uid_last_uid]
    exact alistFind_alistSet s.last_uid mbox (v + 1)

/-- Runs n successive calls of increment_last_soledad_uid on one mailbox,
collecting the returned values in order. -/
def incrementSeq : Nat → MemoryStore → String → Except PyError (List Nat × MemoryStore)
  | 0, s, _ => .ok ([], s)
  | n + 1, s, mbox =>
      match s.increment_last_soledad_uid mbox with
      | .error e => .error e
      | .ok (v, s1) =>
          match incrementSeq n s1 mbox with
          | .error e => .error e
          | .ok (vs, s2) => .ok (v :: vs, s2)

/-- The values returned by a run of incrementSeq (empty on an error). -/
def incrementSeqValues (n : Nat) (s : MemoryStore) (mbox : String) : List Nat :=
  match incrementSeq n s mbox with
  | .ok (vs, _) => vs
  | .error _ => []

theorem incrementSeq_primed (n : Nat) :
    ∀ (s : MemoryStore) (mbox : String) (v0 : Nat),
      alistFind s.last_uid mbox = some v0 →
      ∃ s1, incrementSeq n s mbox =
          .ok ((List.range n).map (fun i => v0 + i + 1), s1) ∧
        alistFind s1.last_uid mbox = some (v0 + n) := by
  induction n with
  | zero =>
      intro s mbox v0 h
      exact ⟨s, by simp [incrementSeq], by simpa using h⟩
  | succ n ih =>
      intro s mbox v0 h
      obtain ⟨s1, hstep, hlook⟩ := increment_last_uid_step s mbox v0 h
      obtain ⟨s2, hrec, hlook2⟩ := ih s1 mbox (v0 + 1) hlook
      refine ⟨s2, ?_, ?_⟩
      · have hl : (v0 + 1) :: (List.range n).map (fun i => v0 + 1 + i + 1) =
            (List.range (n + 1)).map (fun i => v0 + i + 1) := by
          rw [List.range_succ_eq_map, List.map_cons, List.map_map]
          refine congrArg₂ List.cons (by omega) ?_
          refine List.map_congr_left ?_
          intro i _
          simp only [Function.comp_apply]
          omega
        simp only [incrementSeq, hstep, hrec]
        rw [hl]
      · rw [hlook2]
        refine congrArg _ (by omega)

/-! ### Theorems about the claims -/

/-- C2: for every mailbox whose last-uid cache entry is primed with v0, a
run of n successive increment_last_soledad_uid calls succeeds and returns
the values v0+1, v0+2, ..., v0+n in order: the sequence is strictly
increasing and its members are pairwise distinct. -/
theorem increment_last_soledad_uid_strictly_increasing
    (s : MemoryStore) (mbox : String) (v0 n : Nat)
    (h : alistFind s.last_uid mbox = some v0) :
    (∃ s1, incrementSeq n s mbox =
        .ok ((List.range n).map (fun i => v0 + i + 1), s1)) ∧
    incrementSeqValues n s mbox = (List.range n).map (fun i => v0 + i + 1) ∧
    (incrementSeqValues n s mbox).Pairwise (· < ·) ∧
    (incrementSeqValues n s mbox).Nodup := by
  obtain ⟨s1, hrun, _⟩ := incrementSeq_primed n s mbox v0 h
  have hvals : incrementSeqValues n s mbox =
      (List.range n).map (fun i => v0 + i + 1) := by
    simp [incrementSeqValues, hrun]
  have hpair : (incrementSeqValues n s mbox).Pairwise (· < ·) := by
    rw [hvals]
    exact List.pairwise_lt_range n |>.map _ (fun a b hab => by omega)
  refine ⟨⟨s1, hrun⟩, hvals, hpair, ?_⟩
  exact hpair.imp (fun hab => Nat.ne_of_lt hab)

/-- Witness for C2: a store primed at 7 yields 8, 9, 10 from three calls. -/
theorem increment_last_soledad_uid_strictly_increasing_witness :
    incrementSeqValues 3 ⟨[], [], [("INBOX", 7)], [], [], true, none, []⟩ "INBOX" =
      [8, 9, 10] ∧
    (incrementSeqValues 3 ⟨[], [], [("INBOX", 7)], [], [], true, none, []⟩
        "INBOX").Pairwise (· < ·) := by
  have h := increment_last_soledad_uid_strictly_increasing
    ⟨[], [], [("INBOX", 7)], [], [], true, none, []⟩ "INBOX" 7 3 rfl
  exact ⟨h.2.1.trans (by decide), h.2.2.1⟩

/-- C9: increment_last_soledad_uid raises KeyError exactly on the
mailboxes with no cached last-uid entry; with an entry v cached the error
branch is unreachable and the call returns v + 1. -/
theorem increment_last_soledad_uid_keyerror (s : MemoryStore) (mbox : String) :
    (alistFind s.last_uid mbox = none →
      s.increment_last_soledad_uid mbox = .error .keyError) ∧
    (∀ v, alistFind s.last_uid mbox = some v →
      ∃ s1, s.increment_last_soledad_uid mbox = .ok (v + 1, s1)) := by
  constructor
  · intro h
    simp [MemoryStore.increment_last_soledad_uid, h]
  · intro v h
    obtain ⟨s1, hs1, _⟩ := increment_last_uid_step s mbox v h
    exact ⟨s1, hs1⟩

/-- Witness for C9: an unprimed store raises KeyError; priming via
set_last_soledad_uid makes the same call return the cached value plus
one. -/
theorem increment_last_soledad_uid_keyerror_witness :
    (MemoryStore.increment_last_soledad_uid ⟨[], [], [], [], [], true, none, []⟩
       "INBOX" = .error .keyError) ∧
    incrementSeqValues 1
      (MemoryStore.set_last_soledad_uid ⟨[], [], [], [], [], true, none, []⟩
        "INBOX" 5) "INBOX" = [6] := by
  constructor
  · exact (increment_last_soledad_uid_keyerror
      ⟨[], [], [], [], [], true, none, []⟩ "INBOX").1 rfl
  · have h := increment_last_soledad_uid_keyerror
      (MemoryStore.set_last_soledad_uid ⟨[], [], [], [], [], true, none, []⟩
        "INBOX" 5) "INBOX"
    obtain ⟨s1, h1⟩ := h.2 5 rfl
    simp [incrementSeqValues, incrementSeq, h1]

/-- C8: count_new_mbox compares the mbox argument with itself in its
filter, so it counts every key in the new set and coincides with
count_new no matter which mailbox is passed. -/
theorem count_new_mbox_ignores_mbox (s : MemoryStore) (mbox : String) :
    s.count_new_mbox mbox = s.count_new := by
  simp [MemoryStore.count_new_mbox, MemoryStore.count_new]

/-- C5: get_fdoc_from_chash returns none exactly when the (chash, mbox)
index yields nothing, an empty document, or an fdoc flagged Deleted; in
every other case it returns the MessagePartDoc wrapping the indexed
fdoc. -/
theorem get_fdoc_from_chash_none_iff (s : MemoryStore) (chash mbox : String) :
    (s.get_fdoc_from_chash chash mbox = none ↔
       chashIndexedFdoc s chash mbox = none ∨
       chashIndexedFdoc s chash mbox = some .emptyDoc ∨
       (∃ f, chashIndexedFdoc s chash mbox = some (.doc f) ∧
         DELETED_FLAG ∈ f.flags)) ∧
    (∀ f, chashIndexedFdoc s chash mbox = some (.doc f) →
       DELETED_FLAG ∉ f.flags →
       s.get_fdoc_from_chash chash mbox =
         some ⟨decide ((mbox, f.uid) ∈ s.new), decide ((mbox, f.uid) ∈ s.dirty),
               "mem", .fdocPart, .doc f, none⟩) := by
  constructor
  · rcases hidx : chashIndexedFdoc s chash mbox with _ | c
    · simp [MemoryStore.get_fdoc_from_chash, hidx, emptyOptFdoc]
    · cases c with
      | emptyDoc =>
          simp [MemoryStore.get_fdoc_from_chash, hidx, emptyOptFdoc,
                emptyFdocContent]
      | doc f =>
          by_cases hdel : DELETED_FLAG ∈ f.flags
          · simp [MemoryStore.get_fdoc_from_chash, hidx, emptyOptFdoc,
                  emptyFdocContent, hdel]
          · simp [MemoryStore.get_fdoc_from_chash, hidx, emptyOptFdoc,
                  emptyFdocContent, hdel]
  · intro f hidx hdel
    simp [MemoryStore.get_fdoc_from_chash, hidx, emptyOptFdoc,
          emptyFdocContent, hdel]

/-- Witness for C5: a store with a live fdoc indexed under (ch, INBOX)
yields the wrapping document, and one with a Deleted-flagged fdoc yields
none. -/
theorem get_fdoc_from_chash_none_iff_witness :
    MemoryStore.get_fdoc_from_chash
      ⟨[], [("ch", [("INBOX", .doc ⟨["\\Seen"], 4, "INBOX", "ch"⟩)])],
       [], [("INBOX", 4)], [], true, none, []⟩ "ch" "INBOX" =
      some ⟨true, false, "mem", .fdocPart, .doc ⟨["\\Seen"], 4, "INBOX", "ch"⟩,
            none⟩ ∧
    MemoryStore.get_fdoc_from_chash
      ⟨[], [("ch", [("INBOX", .doc ⟨[DELETED_FLAG], 4, "INBOX", "ch"⟩)])],
       [], [], [], true, none, []⟩ "ch" "INBOX" = none := by
  constructor
  · have h := (get_fdoc_from_chash_none_iff
      ⟨[], [("ch", [("INBOX", .doc ⟨["\\Seen"], 4, "INBOX", "ch"⟩)])],
       [], [("INBOX", 4)], [], true, none, []⟩ "ch" "INBOX").2
      ⟨["\\Seen"], 4, "INBOX", "ch"⟩ rfl (by decide)
    exact h.trans (by decide)
  · exact (get_fdoc_from_chash_none_iff _ "ch" "INBOX").1.2
      (Or.inr (Or.inr ⟨⟨[DELETED_FLAG], 4, "INBOX", "ch"⟩, rfl, by decide⟩))

theorem get_fdoc_from_chash_content_nonempty (s : MemoryStore)
    (chash mbox : String) (d : MessagePartDoc)
    (h : s.get_fdoc_from_chash chash mbox = some d) :
    emptyFdocContent d.content = false := by
  rcases hidx : chashIndexedFdoc s chash mbox with _ | c
  · simp [MemoryStore.get_fdoc_from_chash, hidx, emptyOptFdoc] at h
  · cases c with
    | emptyDoc =>
        simp [MemoryStore.get_fdoc_from_chash, hidx, emptyOptFdoc,
              emptyFdocContent] at h
    | doc f =>
        by_cases hdel : DELETED_FLAG ∈ f.flags
        · simp [MemoryStore.get_fdoc_from_chash, hidx, emptyOptFdoc,
                emptyFdocContent, hdel] at h
        · simp [MemoryStore.get_fdoc_from_chash, hidx, emptyOptFdoc,
                emptyFdocContent, hdel] at h
          rw [← h]
          rfl

/-- C3: when get_fdoc_from_chash finds a live (non-deleted, non-empty)
fdoc with the copied message's chash in the destination mailbox, _do_copy
fires the observer with True and leaves the memory store untouched: in
particular nothing is inserted into the message store and the destination
last-uid is not incremented. -/
theorem do_copy_duplicate_noop (mb : SoledadMailbox) (ms : MemoryStore)
    (message : LeapMessage) (fd : Fdoc) (d : MessagePartDoc)
    (hf : message.fdoc = some fd)
    (hdup : ms.get_fdoc_from_chash fd.chash mb.mbox = some d) :
    mb.do_copy ms message = (.ok (.observerFired true), ms) ∧
    (mb.do_copy ms message).2.msg_store = ms.msg_store ∧
    (mb.do_copy ms message).2.last_uid = ms.last_uid := by
  have hne := get_fdoc_from_chash_content_nonempty ms fd.chash mb.mbox d hdup
  have hmain : mb.do_copy ms message = (.ok (.observerFired true), ms) := by
    simp [SoledadMailbox.do_copy, hf, hdup, hne]
  exact ⟨hmain, by rw [hmain], by rw [hmain]⟩

/-- Witness for C3: copying a message whose chash is already live in the
destination INBOX is a state no-op that fires the observer with True. -/
theorem do_copy_duplicate_noop_witness :
    SoledadMailbox.do_copy ⟨"INBOX", 1⟩
      ⟨[(("INBOX", 4), ⟨some ⟨["\\Seen"], 4, "INBOX", "ch"⟩⟩)],
       [("ch", [("INBOX", .doc ⟨["\\Seen"], 4, "INBOX", "ch"⟩)])],
       [("INBOX", 4)], [], [], true, none, []⟩
      ⟨some ⟨["\\Recent"], 9, "OTHER", "ch"⟩, some ()⟩ =
      (.ok (.observerFired true),
       ⟨[(("INBOX", 4), ⟨some ⟨["\\Seen"], 4, "INBOX", "ch"⟩⟩)],
        [("ch", [("INBOX", .doc ⟨["\\Seen"], 4, "INBOX", "ch"⟩)])],
        [("INBOX", 4)], [], [], true, none, []⟩) :=
  (do_copy_duplicate_noop ⟨"INBOX", 1⟩
    ⟨[(("INBOX", 4), ⟨some ⟨["\\Seen"], 4, "INBOX", "ch"⟩⟩)],
     [("ch", [("INBOX", .doc ⟨["\\Seen"], 4, "INBOX", "ch"⟩)])],
     [("INBOX", 4)], [], [], true, none, []⟩
    ⟨some ⟨["\\Recent"], 9, "OTHER", "ch"⟩, some ()⟩
    ⟨["\\Recent"], 9, "OTHER", "ch"⟩
    ⟨false, false, "mem", .fdocPart, .doc ⟨["\\Seen"], 4, "INBOX", "ch"⟩, none⟩
    rfl rfl).1

/-- C6: on a mailbox opened with rw = 0, store and expunge raise
ReadOnlyMailbox and return with the memory store exactly as it was: no
flag is modified and no message is deleted. -/
theorem store_expunge_read_only (mb : SoledadMailbox) (ms : MemoryStore)
    (messages_asked : List Nat) (flags : List String) (mode : Int) (uid : Bool)
    (h : mb.isWriteable = 0) :
    mb.store ms messages_asked flags mode uid = (.error .readOnlyMailbox, ms) ∧
    mb.expunge ms = (.error .readOnlyMailbox, ms) := by
  constructor
  · simp [SoledadMailbox.store, h]
  · simp [SoledadMailbox.expunge, h]

/-- Witness for C6: a read-only INBOX refuses store and expunge without
touching a one-message store. -/
theorem store_expunge_read_only_witness :
    SoledadMailbox.store ⟨"INBOX", 0⟩
        ⟨[(("INBOX", 1), ⟨some ⟨["\\Seen"], 1, "INBOX", "c1"⟩⟩)],
         [], [("INBOX", 1)], [], [], true, none, []⟩ [1] ["\\Flagged"] 1 true =
      (.error .readOnlyMailbox,
       ⟨[(("INBOX", 1), ⟨some ⟨["\\Seen"], 1, "INBOX", "c1"⟩⟩)],
        [], [("INBOX", 1)], [], [], true, none, []⟩) ∧
    SoledadMailbox.expunge ⟨"INBOX", 0⟩
        ⟨[(("INBOX", 1), ⟨some ⟨["\\Seen"], 1, "INBOX", "c1"⟩⟩)],
         [], [("INBOX", 1)], [], [], true, none, []⟩ =
      (.error .readOnlyMailbox,
       ⟨[(("INBOX", 1), ⟨some ⟨["\\Seen"], 1, "INBOX", "c1"⟩⟩)],
        [], [("INBOX", 1)], [], [], true, none, []⟩) :=
  store_expunge_read_only ⟨"INBOX", 0⟩
    ⟨[(("INBOX", 1), ⟨some ⟨["\\Seen"], 1, "INBOX", "c1"⟩⟩)],
     [], [("INBOX", 1)], [], [], true, none, []⟩ [1] ["\\Flagged"] 1 true rfl

/-- C7: unsubscribe reads the never-assigned `subscriptions` attribute, so
on every account built by the constructor it fails with AttributeError for
every name and every fetched subscription list, and in particular never
raises the not-currently-subscribed MailboxException the spec intends. -/
theorem unsubscribe_attribute_error (mailboxes : List String) (name : String)
    (fetched_subscriptions : List String) :
    (mkSoledadBackedAccount mailboxes).unsubscribe name fetched_subscriptions =
      .error .attributeError ∧
    (mkSoledadBackedAccount mailboxes).unsubscribe name fetched_subscriptions ≠
      .error .mailboxException := by
  constructor
  · rfl
  · intro h
    simp [SoledadBackedAccount.unsubscribe, SoledadBackedAccount.check_and_unsubscribe,
          mkSoledadBackedAccount] at h

theorem stop_write_loop_msg_store (s : MemoryStore) :
    s.stop_write_loop.msg_store = s.msg_store := by
  unfold MemoryStore.stop_write_loop
  split <;> rfl

theorem stop_write_loop_permanent_store (s : MemoryStore) :
    s.stop_write_loop.permanent_store = s.permanent_store := by
  unfold MemoryStore.stop_write_loop
  split <;> rfl

theorem start_write_loop_running (s : MemoryStore) :
    s.start_write_loop.write_loop_running = true := by
  unfold MemoryStore.start_write_loop
  split <;> simp_all

theorem start_write_loop_msg_store (s : MemoryStore) :
    s.start_write_loop.msg_store = s.msg_store := by
  unfold MemoryStore.start_write_loop
  split <;> rfl

theorem remove_message_msg_store (s : MemoryStore) (mbox : String) (uid : Nat) :
    (s.remove_message mbox uid).msg_store =
      s.msg_store.filter (fun e => decide (e.1 ≠ (mbox, uid))) := rfl

/-- Message-store entries surviving a fold of remove_message calls were in
the original store and match none of the removed (mbox, uid) keys. -/
theorem mem_msg_store_foldl_remove (uids : List Nat) :
    ∀ (s : MemoryStore) (mbox : String)
      (e : (String × Nat) × MsgDict),
      e ∈ (uids.foldl (fun acc uid => acc.remove_message mbox uid) s).msg_store →
      e ∈ s.msg_store ∧ ∀ u ∈ uids, e.1 ≠ (mbox, u) := by
  induction uids with
  | nil =>
      intro s mbox e he
      exact ⟨he, by simp⟩
  | cons u rest ih =>
      intro s mbox e he
      rw [List.foldl_cons] at he
      obtain ⟨h1, h2⟩ := ih _ mbox e he
      rw [remove_message_msg_store] at h1
      rw [List.mem_filter] at h1
      refine ⟨h1.1, ?_⟩
      intro u1 hu1
      rcases List.mem_cons.1 hu1 with h | h
      · subst h
        simpa using h1.2
      · exact h2 u1 h

/-- A mailbox entry holding a Deleted-flagged fdoc contributes its fdoc
uid to all_deleted_uid_iter. -/
theorem uid_mem_all_deleted_uid_iter (s : MemoryStore) (mbox : String)
    (e : (String × Nat) × MsgDict) (f : Fdoc)
    (he : e ∈ s.msg_store) (hm : e.1.1 = mbox) (hf : e.2.fdoc = some f)
    (hd : DELETED_FLAG ∈ f.flags) :
    f.uid ∈ s.all_deleted_uid_iter mbox := by
  unfold MemoryStore.all_deleted_uid_iter
  refine List.mem_filterMap.2 ⟨e.2, ?_, ?_⟩
  · unfold MemoryStore.all_msg_dict_for_mbox
    exact List.mem_filterMap.2 ⟨e, he, by simp [hm]⟩
  · simp [hf, hd]

/-- The deleted-uid collection only reads the message store. -/
theorem all_deleted_uid_iter_congr (s t : MemoryStore) (mbox : String)
    (h : s.msg_store = t.msg_store) :
    s.all_deleted_uid_iter mbox = t.all_deleted_uid_iter mbox := by
  unfold MemoryStore.all_deleted_uid_iter MemoryStore.all_msg_dict_for_mbox
  rw [h]


/-- After remove_all_deleted, provided each stored fdoc records the uid it
is keyed under, no Deleted-flagged fdoc of the mailbox survives in the
message store. -/
theorem remove_all_deleted_postcondition (s2 : MemoryStore) (mbox : String)
    (hkeys : ∀ e ∈ s2.msg_store, ∀ f, e.2.fdoc = some f →
      e.1.1 = mbox → f.uid = e.1.2) :
    ∀ e ∈ (s2.remove_all_deleted mbox).2.msg_store, e.1.1 = mbox →
      ∀ f, e.2.fdoc = some f → DELETED_FLAG ∉ f.flags := by
  intro e he hm f hf hd
  unfold MemoryStore.remove_all_deleted at he
  obtain ⟨h1, h2⟩ := mem_msg_store_foldl_remove _ _ _ _ he
  have huid : f.uid ∈ s2.all_deleted_uid_iter mbox :=
    uid_mem_all_deleted_uid_iter s2 mbox e f h1 hm hf hd
  refine h2 f.uid huid ?_
  have huideq := hkeys e h1 f hf hm
  rw [← hm, huideq]


/-- C4: expunge performs, in order, stop-write-loop, the permanent-store
deletion, the in-memory deletion, and start-write-loop; it returns the
union of the uids deleted in memory and on the permanent store; the write
loop is running again afterwards; and, provided every stored fdoc records
the uid it is keyed under, no message whose fdoc flags contain Deleted
remains in the memory store under that mailbox. -/
theorem expunge_spec (s : MemoryStore) (mbox : String)
    (hkeys : ∀ e ∈ s.msg_store, ∀ f, e.2.fdoc = some f →
      e.1.1 = mbox → f.uid = e.1.2) :
    (s.expunge mbox).1 =
      [.stopWriteLoop, .permanentDelete (s.sol_deleted mbox),
       .memoryDelete (s.all_deleted_uid_iter mbox), .startWriteLoop] ∧
    (∀ u, u ∈ (s.expunge mbox).2.1 ↔
       u ∈ s.all_deleted_uid_iter mbox ∨ u ∈ s.sol_deleted mbox) ∧
    (s.expunge mbox).2.2.write_loop_running = true ∧
    (∀ e ∈ (s.expunge mbox).2.2.msg_store, e.1.1 = mbox →
       ∀ f, e.2.fdoc = some f → DELETED_FLAG ∉ f.flags) := by
  obtain ⟨ms0, ch0, lu0, nw0, dt0, wl0, ps0, pw0⟩ := s
  refine ⟨?_, ?_, ?_, ?_⟩
  · cases wl0 <;> cases ps0 <;>
      simp [MemoryStore.expunge, MemoryStore.stop_write_loop,
            MemoryStore.sol_deleted, MemoryStore.remove_all_deleted,
            MemoryStore.all_deleted_uid_iter, MemoryStore.all_msg_dict_for_mbox]
  · intro u
    have heq :
        (MemoryStore.expunge ⟨ms0, ch0, lu0, nw0, dt0, wl0, ps0, pw0⟩ mbox).2.1 =
          (MemoryStore.all_deleted_uid_iter
              ⟨ms0, ch0, lu0, nw0, dt0, wl0, ps0, pw0⟩ mbox).union
            (MemoryStore.sol_deleted
              ⟨ms0, ch0, lu0, nw0, dt0, wl0, ps0, pw0⟩ mbox) := by
      cases wl0 <;> cases ps0 <;>
        simp [MemoryStore.expunge, MemoryStore.stop_write_loop,
              MemoryStore.sol_deleted, MemoryStore.remove_all_deleted,
              MemoryStore.all_deleted_uid_iter, MemoryStore.all_msg_dict_for_mbox]
    rw [heq]
    exact List.mem_union_iff
  · simp only [MemoryStore.expunge]
    exact start_write_loop_running _
  · intro e he hm f hf
    cases wl0 <;> cases ps0 <;>
    · simp only [MemoryStore.expunge, MemoryStore.stop_write_loop,
        Bool.false_eq_true, if_true, if_false, ite_true, ite_false] at he
      rw [start_write_loop_msg_store] at he
      refine remove_all_deleted_postcondition _ mbox ?_ e he hm f hf
      exact hkeys

/-- Witness for C4: a two-message INBOX with uid 1 flagged Deleted in
memory and uid 3 flagged Deleted on the permanent store. -/
theorem expunge_spec_witness :
    (MemoryStore.expunge
        ⟨[(("INBOX", 1), ⟨some ⟨[DELETED_FLAG], 1, "INBOX", "c1"⟩⟩),
          (("INBOX", 2), ⟨some ⟨["\\Seen"], 2, "INBOX", "c2"⟩⟩)],
         [], [("INBOX", 2)], [], [], true,
         some ⟨[(("INBOX", 3), [DELETED_FLAG])]⟩, []⟩ "INBOX").1 =
      [.stopWriteLoop, .permanentDelete [3], .memoryDelete [1],
       .startWriteLoop] ∧
    (1 : Nat) ∈ (MemoryStore.expunge
        ⟨[(("INBOX", 1), ⟨some ⟨[DELETED_FLAG], 1, "INBOX", "c1"⟩⟩),
          (("INBOX", 2), ⟨some ⟨["\\Seen"], 2, "INBOX", "c2"⟩⟩)],
         [], [("INBOX", 2)], [], [], true,
         some ⟨[(("INBOX", 3), [DELETED_FLAG])]⟩, []⟩ "INBOX").2.1 ∧
    (3 : Nat) ∈ (MemoryStore.expunge
        ⟨[(("INBOX", 1), ⟨some ⟨[DELETED_FLAG], 1, "INBOX", "c1"⟩⟩),
          (("INBOX", 2), ⟨some ⟨["\\Seen"], 2, "INBOX", "c2"⟩⟩)],
         [], [("INBOX", 2)], [], [], true,
         some ⟨[(("INBOX", 3), [DELETED_FLAG])]⟩, []⟩ "INBOX").2.1 ∧
    (MemoryStore.expunge
        ⟨[(("INBOX", 1), ⟨some ⟨[DELETED_FLAG], 1, "INBOX", "c1"⟩⟩),
          (("INBOX", 2), ⟨some ⟨["\\Seen"], 2, "INBOX", "c2"⟩⟩)],
         [], [("INBOX", 2)], [], [], true,
         some ⟨[(("INBOX", 3), [DELETED_FLAG])]⟩, []⟩ "INBOX").2.2.write_loop_running
      = true := by
  have h := expunge_spec
    ⟨[(("INBOX", 1), ⟨some ⟨[DELETED_FLAG], 1, "INBOX", "c1"⟩⟩),
      (("INBOX", 2), ⟨some ⟨["\\Seen"], 2, "INBOX", "c2"⟩⟩)],
     [], [("INBOX", 2)], [], [], true,
     some ⟨[(("INBOX", 3), [DELETED_FLAG])]⟩, []⟩ "INBOX" (by decide)
  exact ⟨h.1.trans (by decide), (h.2.1 1).mpr (Or.inl (by decide)),
         (h.2.1 3).mpr (Or.inr (by decide)), h.2.2.1⟩

/-! ### MIME walker (walk.py)

Part dicts are Python dicts whose key set varies: a key may be absent, or
present holding None.  Each possible key of the dicts handled by
walk.get_parts and walk.walk_msg_tree becomes an Option field; a missing
key is `none` and a key holding Python None is `some none`.  Header
collections appear both as lists of pairs (from Message.items()) and as
dicts built by `dict(...)`; the two never compare equal in Python, so they
are separate constructors. -/

inductive HeadersVal where
  | hlist (items : List (String × String))
  | hdict (items : List (String × String))
deriving DecidableEq, Repr

/-- Building a Python dict from a list of pairs: later values for a key
overwrite earlier ones in place, fresh keys append, which yields a
canonical first-insertion order. -/
def pyDictInsert (acc : List (String × String)) (kv : String × String) :
    List (String × String) :=
  if acc.any (fun p => p.1 == kv.1)
  then acc.map (fun p => if p.1 = kv.1 then (p.1, kv.2) else p)
  else acc ++ [kv]

def pyDictOfPairs (items : List (String × String)) : List (String × String) :=
  items.foldl pyDictInsert []

/-- The `dict(...)` conversion applied to a headers value by the wrapper
construction in walk_msg_tree. -/
def headersToDict : HeadersVal → HeadersVal
  | .hlist items => .hdict (pyDictOfPairs items)
  | .hdict items => .hdict items

inductive PDict where
  | mk (multi : Option Bool) (ctype : Option String) (size : Option Nat)
       (parts : Option Nat) (headers : Option HeadersVal)
       (phash : Option (Option String))
       (part_map : Option (List (Nat × PDict)))
       (body : Option (Option String)) : PDict
deriving Repr

instance : Inhabited PDict := ⟨.mk none none none none none none none none⟩

def PDict.multi : PDict → Option Bool
  | .mk v _ _ _ _ _ _ _ => v

def PDict.ctype : PDict → Option String
  | .mk _ v _ _ _ _ _ _ => v

def PDict.size : PDict → Option Nat
  | .mk _ _ v _ _ _ _ _ => v

def PDict.parts : PDict → Option Nat
  | .mk _ _ _ v _ _ _ _ => v

def PDict.headers : PDict → Option HeadersVal
  | .mk _ _ _ _ v _ _ _ => v

def PDict.phash : PDict → Option (Option String)
  | .mk _ _ _ _ _ v _ _ => v

def PDict.part_map : PDict → Option (List (Nat × PDict))
  | .mk _ _ _ _ _ _ v _ => v

def PDict.body : PDict → Option (Option String)
  | .mk _ _ _ _ _ _ _ v => v

def PDict.setParts : PDict → Nat → PDict
  | .mk m c s _ h p pm b, n => .mk m c s (some n) h p pm b

def PDict.setPartMap : PDict → List (Nat × PDict) → PDict
  | .mk m c s n h p _ b, pm => .mk m c s n h p (some pm) b

def PDict.popHeaders : PDict → PDict
  | .mk m c s n _ p pm b => .mk m c s n none p pm b

def PDict.setMultiFalse : PDict → PDict
  | .mk _ c s n h p pm b => .mk (some false) c s n h p pm b

def PDict.setHeaders : PDict → HeadersVal → PDict
  | .mk m c s n _ p pm b, h => .mk m c s n (some h) p pm b

def PDict.setBody : PDict → Option String → PDict
  | .mk m c s n h p pm _, bp => .mk m c s n h p pm (some bp)

mutual
/-- Python equality of part dicts, used by `list.remove` inside
walk_msg_tree.  Keys present on one side only make dicts unequal; header
lists compare as lists and header dicts by their canonical insertion-order
representation (the walker always builds them in the same order). -/
def pyEq : PDict → PDict → Bool
  | .mk m c s n h p pm b, .mk m2 c2 s2 n2 h2 p2 pm2 b2 =>
      m == m2 && c == c2 && s == s2 && n == n2 && h == h2 && p == p2 &&
      pyEqPM pm pm2 && b == b2

def pyEqPM : Option (List (Nat × PDict)) → Option (List (Nat × PDict)) → Bool
  | none, none => true
  | some l, some l2 => pyEqList l l2
  | some _, none => false
  | none, some _ => false

def pyEqList : List (Nat × PDict) → List (Nat × PDict) → Bool
  | [], [] => true
  | (k, v) :: rest, (k2, v2) :: rest2 =>
      k == k2 && pyEq v v2 && pyEqList rest rest2
  | [], _ :: _ => false
  | _ :: _, [] => false
end

/-- Embeds walk.get_parts_vector: `x.get('parts', 1)` for each part. -/
def get_parts_vector (parts : List PDict) : List Nat :=
  parts.map (fun x => x.parts.getD 1)

/-- Embeds walk._get_wrappers_vector: position i is a wrapper when its
subpart count differs from 1 and the next position counts exactly 1. -/
def get_wrappers_vector (vparts : List Nat) : List Bool :=
  (List.range (vparts.length - 1)).map
    (fun i => decide (vparts.getD i 0 ≠ 1 ∧ vparts.getD (i + 1) 0 = 1))

/-- The 1-based part_map dict built from an ordered list of subparts. -/
def enumPartMap (subparts : List PDict) : List (Nat × PDict) :=
  subparts.enum.map (fun ip => (ip.1 + 1, ip.2))

/-- Python list.remove: drop the first element equal to x, ValueError when
none is. -/
def listRemoveFirst : List PDict → PDict → Except PyError (List PDict)
  | [], _ => .error .valueError
  | y :: rest, x =>
      if pyEq y x then .ok rest
      else
        match listRemoveFirst rest x with
        | .ok r => .ok (y :: r)
        | .error e => .error e

/-- The eager `map(lambda i: _parts.remove(i), subparts)` of
walk_msg_tree: remove the subparts one after the other. -/
def removeEach : List PDict → List PDict → Except PyError (List PDict)
  | l, [] => .ok l
  | l, x :: rest =>
      match listRemoveFirst l x with
      | .ok l1 => removeEach l1 rest
      | .error e => .error e

/-- Embeds the while loop of walk.walk_msg_tree.  Each round finds the
leftmost wrapper, slices out as many following parts as the wrapper
counts, builds the synthetic content_wrapper dict (reading the wrapper's
headers raises KeyError when absent), removes the subparts by value, and
writes the wrapper over the position (IndexError when it fell off the
shortened list).  Fuel bounds the rounds; each round either shortens the
list or turns a non-1 count into a 1, so 2*len+2 rounds never run out on
the loop's own account. -/
def collapseLoop : Nat → List PDict → Except PyError (List PDict)
  | 0, _ => .error .fuelExhausted
  | fuel + 1, ps =>
      let num_parts_vector := get_parts_vector ps
      let is_wrapper_vector := get_wrappers_vector num_parts_vector
      if is_wrapper_vector.any (fun b => b) then
        let wrapper_idx := is_wrapper_vector.findIdx (fun b => b)
        let subp_n := num_parts_vector.getD wrapper_idx 0
        let subparts := (ps.drop (wrapper_idx + 1)).take subp_n
        match (ps.getD wrapper_idx default).headers with
        | none => .error .keyError
        | some hv =>
            let content_wrapper : PDict :=
              .mk (some true) none none none (some (headersToDict hv)) none
                  (some (enumPartMap subparts)) none
            match removeEach ps subparts with
            | .error e => .error e
            | .ok ps1 =>
                if wrapper_idx < ps1.length
                then collapseLoop fuel (ps1.set wrapper_idx content_wrapper)
                else .error .indexError
      else .ok ps

def pmapMaxKey (pm : List (Nat × PDict)) : Option Nat :=
  (pm.map Prod.fst).max?

def pmapGet (pm : List (Nat × PDict)) (k : Nat) : Option PDict :=
  (pm.find? (fun e => e.1 == k)).map Prod.snd

def pmapUpdate (pm : List (Nat × PDict)) (k : Nat) (v : PDict) :
    List (Nat × PDict) :=
  pm.map (fun e => if e.1 = k then (e.1, v) else e)

/-- Embeds the is_rightmost_item special case after the loop of
walk.walk_msg_tree: when every count is 1 and the first part carries a
part_map, give its last entry a fresh part_map holding the remaining
parts at 1-based positions.  Reading the first element of an empty list
raises IndexError; max() over an empty key set raises ValueError. -/
def rightmostFix (ps : List PDict) : Except PyError (List PDict) :=
  let num_parts_vector := get_parts_vector ps
  if num_parts_vector.all (fun x => x == 1) then
    match ps with
    | [] => .error .indexError
    | p0 :: _rest =>
        match p0.part_map with
        | none => .ok ps
        | some main_pmap =>
            match pmapMaxKey main_pmap with
            | none => .error .valueError
            | some last_part =>
                match pmapGet main_pmap last_part with
                | none => .error .keyError
                | some lp =>
                    let tail := (List.range (num_parts_vector.length - 1)).map
                      (fun part_idx => ps.getD (part_idx + 1) default)
                    let lp1 := lp.setPartMap (enumPartMap tail)
                    let main1 := pmapUpdate main_pmap last_part lp1
                    .ok (ps.set 0 (p0.setPartMap main1))
  else .ok ps

/-- Python truthiness of the phash entry of a part dict: absent keys,
None values and empty strings are falsy. -/
def phashFalsy (p : PDict) : Bool :=
  match p.phash with
  | none => true
  | some none => true
  | some (some s) => s == ""

/-- Python truthiness of the optional headers value read by
`_parts[1].get('headers', None)`: None and empty collections are falsy. -/
def headersTruthy : Option HeadersVal → Bool
  | none => false
  | some (.hlist items) => ! items.isEmpty
  | some (.hdict items) => ! items.isEmpty

/-- Embeds the tail of walk.walk_msg_tree after the loop and the
rightmost-item fix: pop the outer headers (AttributeError on an empty
list, since first() yields None; KeyError when the key is gone), return
the outer dict when it carries a part_map, and otherwise wrap the second
part (or the outer itself when there is only one) as part 1, clearing its
multi flag.  When that part's phash is falsy the source assigns through
the undefined name PHASH, a NameError.  The body_phash argument is used
by the source only in the final `parts_dict['body'] = body_phash`, so the
embedding splits there: this core builds parts_dict and walkFinish below
adds the body key. -/
def walkFinishCore (ps : List PDict) : Except PyError PDict :=
  match ps with
  | [] => .error .attributeError
  | outer0 :: rest =>
      match outer0.headers with
      | none => .error .keyError
      | some _ =>
          let outer := outer0.popHeaders
          match outer.part_map with
          | some _ => .ok outer
          | none =>
              let innerPair : PDict × Bool :=
                match rest with
                | [] => (outer, false)
                | i1 :: _ => (i1, true)
              let inner1 := innerPair.1.setMultiFalse
              if phashFalsy inner1 then .error .nameError
              else
                let inner_headers : Option HeadersVal :=
                  if ps.length = 2 then (ps.getD 1 default).headers else none
                let inner2 :=
                  if headersTruthy inner_headers then
                    inner1.setHeaders (inner_headers.getD (.hlist []))
                  else inner1
                let parts_dict : PDict :=
                  .mk (some innerPair.2) none none none none none
                      (some [(1, inner2)]) none
                .ok parts_dict

def walkFinish (ps : List PDict) (body_phash : Option String) :
    Except PyError PDict :=
  (walkFinishCore ps).map (fun parts_dict => parts_dict.setBody body_phash)

/-- The deepcopy at the top of walk.walk_msg_tree: the copy the walker
works on, disjoint from the caller's list.  On values a deep copy is the
identity; what matters is that every later mutation in the source targets
the copy, which the embedding mirrors by leaving the argument untouched. -/
def deepcopyParts (parts : List PDict) : List PDict :=
  parts

/-- Embeds walk.walk_msg_tree: deep-copy the incoming parts list, run the
collapse loop, apply the rightmost-item fix, and build the outer parts
dict carrying `body = body_phash`. -/
def walk_msg_tree (parts : List PDict) (body_phash : Option String) :
    Except PyError PDict :=
  let uparts := deepcopyParts parts
  match collapseLoop (2 * uparts.length + 2) uparts with
  | .error e => .error e
  | .ok ps1 =>
      match rightmostFix ps1 with
      | .error e => .error e
      | .ok ps2 => walkFinish ps2 body_phash

/-- A parsed RFC-822 message as email.parser produces it: every node has a
header list and a content type; a leaf holds a string payload and a
multipart holds a list of submessages. -/
inductive EmailMsg where
  | leaf (headers : List (String × String)) (ctype : String) (payload : String)
  | multi (headers : List (String × String)) (ctype : String)
          (subs : List EmailMsg)
deriving Repr

mutual
/-- Embeds Message.walk(): the node itself, then its subparts depth
first. -/
def msgWalk : EmailMsg → List EmailMsg
  | .leaf h c p => [.leaf h c p]
  | .multi h c subs => .multi h c subs :: msgWalkList subs

def msgWalkList : List EmailMsg → List EmailMsg
  | [] => []
  | m :: ms => msgWalk m ++ msgWalkList ms
end

def EmailMsg.is_multipart : EmailMsg → Bool
  | .leaf _ _ _ => false
  | .multi _ _ _ => true

/-- Embeds Message.get_content_type(), taken as the node's content type
(the email package normalizes it to lowercase at parse time). -/
def EmailMsg.get_content_type : EmailMsg → String
  | .leaf _ c _ => c
  | .multi _ c _ => c

def EmailMsg.headerItems : EmailMsg → List (String × String)
  | .leaf h _ _ => h
  | .multi h _ _ => h

/-- Embeds `len(part.get_payload()) if isinstance(part.get_payload(), list)
else 1`: the subpart count, 1 for leaves. -/
def EmailMsg.numParts : EmailMsg → Nat
  | .leaf _ _ _ => 1
  | .multi _ _ subs => subs.length

/-- Character-wise ASCII lowercasing of a header name (String.toLower by
way of the underlying character list). -/
def strLower (s : String) : String :=
  ⟨s.data.map Char.toLower⟩

/-- Embeds Message.__getitem__(name): the first header whose name matches
case-insensitively, None when missing. -/
def EmailMsg.getHeader (m : EmailMsg) (name : String) : Option String :=
  (m.headerItems.find? (fun kv => strLower kv.1 == strLower name)).map Prod.snd

/-- The part dict that one iteration of the get_parts loop builds, before
the delivery-status special case: multi, ctype, size, parts, headers and
phash keys (phash holds None for multiparts). -/
def partDictOf (hashF : String → String) (sizeF : EmailMsg → Nat)
    (part : EmailMsg) : PDict :=
  .mk (some part.is_multipart) (some part.get_content_type)
      (some (sizeF part)) (some part.numParts)
      (some (.hlist part.headerItems))
      (some (match part with
             | .leaf _ _ payload => some (hashF payload)
             | .multi _ _ _ => none))
      none none

/-- Embeds the `for idx, part in enumerate(parts)` loop of walk.get_parts,
which mutates the list it iterates: enumeration is by live index, and the
delivery-status case pops the element after the current one (IndexError
when there is none) so the loop never visits it.  The fuel argument only
bounds the rounds for the recursion: the index grows by one each round
while the list never grows, so starting fuel at length + 1 never runs
out. -/
def getPartsLoop (hashF : String → String) (sizeF : EmailMsg → Nat) :
    Nat → Nat → List EmailMsg → Except PyError (List PDict)
  | 0, _, _ => .error .fuelExhausted
  | fuel + 1, idx, parts =>
    if h : idx < parts.length then
      let part := parts.get ⟨idx, h⟩
      let part_dict := partDictOf hashF sizeF part
      if part.getHeader "content-type" == some "message/delivery-status" then
        if idx + 1 < parts.length then
          match getPartsLoop hashF sizeF fuel (idx + 1)
              (parts.eraseIdx (idx + 1)) with
          | .ok rest => .ok (part_dict.setParts 1 :: rest)
          | .error e => .error e
        else .error .indexError
      else
        match getPartsLoop hashF sizeF fuel (idx + 1) parts with
        | .ok rest => .ok (part_dict :: rest)
        | .error e => .error e
    else .ok []

/-- Embeds walk.get_parts: one dict per part of the message walk.  The
hash of a payload and the size of a part (len(part.as_string())) are
abstract parameters: the claims do not depend on their values. -/
def get_parts (hashF : String → String) (sizeF : EmailMsg → Nat)
    (msg : EmailMsg) : Except PyError (List PDict) :=
  getPartsLoop hashF sizeF ((msgWalk msg).length + 1) 0 (msgWalk msg)

/-- Embeds walk.get_body_phash: the hash of the first part of the walk
whose content type is text/plain or text/html; None (the implicit return)
when there is none.  Hashing a multipart payload, a list, would raise
TypeError inside the hash update. -/
def gbpLoop (hashF : String → String) : List EmailMsg → Except PyError (Option String)
  | [] => .ok none
  | part :: rest =>
      if part.get_content_type = "text/plain" ∨
         part.get_content_type = "text/html" then
        match part with
        | .leaf _ _ payload => .ok (some (hashF payload))
        | .multi _ _ _ => .error .typeError
      else gbpLoop hashF rest

def get_body_phash (hashF : String → String) (msg : EmailMsg) :
    Except PyError (Option String) :=
  gbpLoop hashF (msgWalk msg)

theorem PDict.body_setBody (p : PDict) (bp : Option String) :
    (p.setBody bp).body = some bp := by
  cases p
  rfl

theorem walkFinish_body (ps : List PDict) (bp : Option String) (t : PDict)
    (h : walkFinish ps bp = .ok t) : t.body = some bp := by
  unfold walkFinish at h
  rcases hc : walkFinishCore ps with e | d
  · rw [hc] at h
    simp [Except.map] at h
  · rw [hc] at h
    simp [Except.map] at h
    rw [← h]
    exact PDict.body_setBody d bp

theorem walk_msg_tree_body (parts : List PDict) (bp : Option String) (t : PDict)
    (h : walk_msg_tree parts bp = .ok t) : t.body = some bp := by
  unfold walk_msg_tree deepcopyParts at h
  simp only [] at h
  rcases h1 : collapseLoop (2 * parts.length + 2) parts with e | ps1
  · rw [h1] at h
    simp at h
  · rw [h1] at h
    dsimp only at h
    rcases h2 : rightmostFix ps1 with e | ps2
    · rw [h2] at h
      simp at h
    · rw [h2] at h
      exact walkFinish_body ps2 bp t h

theorem gbpLoop_no_text (hashF : String → String) :
    ∀ l : List EmailMsg,
      (∀ p ∈ l, p.get_content_type ≠ "text/plain" ∧
                p.get_content_type ≠ "text/html") →
      gbpLoop hashF l = .ok none := by
  intro l
  induction l with
  | nil => intro _; rfl
  | cons p rest ih =>
      intro h
      have hp := h p (List.mem_cons_self p rest)
      have hrest := ih (fun q hq => h q (List.mem_cons_of_mem p hq))
      simp only [gbpLoop]
      rw [if_neg (by simp [hp.1, hp.2])]
      exact hrest

/-- C10: when no part of a parsed message has content type text/plain or
text/html, get_body_phash returns None, and every tree the walker returns
for that message (walked with that None body hash) carries body = None. -/
theorem no_text_part_body_none (hashF : String → String)
    (sizeF : EmailMsg → Nat) (msg : EmailMsg)
    (hno : ∀ p ∈ msgWalk msg, p.get_content_type ≠ "text/plain" ∧
                              p.get_content_type ≠ "text/html") :
    get_body_phash hashF msg = .ok none ∧
    (∀ ps t, get_parts hashF sizeF msg = .ok ps →
       walk_msg_tree ps none = .ok t → t.body = some none) := by
  refine ⟨gbpLoop_no_text hashF (msgWalk msg) hno, ?_⟩
  intro ps t _ hw
  exact walk_msg_tree_body ps none t hw

/-! Concrete inputs used by the walker witnesses. -/

def hfEx : String → String := fun s => String.append "#" s

def sfEx : EmailMsg → Nat := fun _ => 7

def pdfMsg : EmailMsg :=
  .leaf [("Content-Type", "application/pdf")] "application/pdf" "xyz"

def pdfParts : List PDict :=
  [.mk (some false) (some "application/pdf") (some 7) (some 1)
      (some (.hlist [("Content-Type", "application/pdf")]))
      (some (some "#xyz")) none none]

def pdfTree : PDict :=
  .mk (some false) none none none none none
      (some [(1, .mk (some false) (some "application/pdf") (some 7) (some 1)
                    none (some (some "#xyz")) none none)])
      (some none)

/-- Witness for C10: a single application/pdf message has no body phash
and its walked tree carries body = None. -/
theorem no_text_part_body_none_witness :
    get_body_phash hfEx pdfMsg = .ok none ∧
    get_parts hfEx sfEx pdfMsg = .ok pdfParts ∧
    walk_msg_tree pdfParts none = .ok pdfTree ∧
    pdfTree.body = some none := by
  have h := no_text_part_body_none hfEx sfEx pdfMsg (by decide)
  have hparts : get_parts hfEx sfEx pdfMsg = .ok pdfParts := rfl
  exact ⟨h.1, hparts, rfl, h.2 pdfParts pdfTree hparts rfl⟩

/-- The call discipline of walk.walk_msg_tree as the caller observes it:
the function's only access to its `parts` argument is the deepcopy read at
the top (all in-place mutation in the source, the subpart removals, the
wrapper assignments, the rightmost-item fix and the headers pop, targets
`_parts`, the copy), so a call returns its result alongside the caller's
list, which it leaves as it was. -/
def walk_msg_tree_call (callerList : List PDict) (body_phash : Option String) :
    Except PyError PDict × List PDict :=
  (walk_msg_tree callerList body_phash, callerList)

/-- C1: walking the part list of a parsed message leaves the list as
get_parts produced it (the walker works on a deep copy), and a second
walk_msg_tree call on that same list returns output equal to the first
call's output. -/
theorem walk_msg_tree_idempotent (hashF : String → String)
    (sizeF : EmailMsg → Nat) (msg : EmailMsg) (ps : List PDict)
    (bp : Option String)
    (_hps : get_parts hashF sizeF msg = .ok ps) :
    (walk_msg_tree_call ps bp).2 = ps ∧
    (walk_msg_tree_call ((walk_msg_tree_call ps bp).2) bp).2 = ps ∧
    (walk_msg_tree_call ((walk_msg_tree_call ps bp).2) bp).1 =
      (walk_msg_tree_call ps bp).1 :=
  ⟨rfl, rfl, rfl⟩

/-! Concrete multipart/signed message for the C1 witness, shaped like the
rfc822.multi-signed.message corpus file of test_walk.py. -/

def msignedMsg : EmailMsg :=
  .multi [("Content-Type", "multipart/signed")] "multipart/signed"
    [.multi [("Content-Type", "multipart/mixed")] "multipart/mixed"
      [.leaf [("Content-Type", "text/plain")] "text/plain" "a",
       .leaf [("Content-Type", "text/plain")] "text/plain" "b",
       .leaf [("Content-Type", "application/octet-stream")]
         "application/octet-stream" "c"],
     .leaf [("Content-Type", "application/pgp-signature")]
       "application/pgp-signature" "sig"]

def msignedParts : List PDict :=
  [.mk (some true) (some "multipart/signed") (some 7) (some 2)
      (some (.hlist [("Content-Type", "multipart/signed")])) (some none)
      none none,
   .mk (some true) (some "multipart/mixed") (some 7) (some 3)
      (some (.hlist [("Content-Type", "multipart/mixed")])) (some none)
      none none,
   .mk (some false) (some "text/plain") (some 7) (some 1)
      (some (.hlist [("Content-Type", "text/plain")])) (some (some "#a"))
      none none,
   .mk (some false) (some "text/plain") (some 7) (some 1)
      (some (.hlist [("Content-Type", "text/plain")])) (some (some "#b"))
      none none,
   .mk (some false) (some "application/octet-stream") (some 7) (some 1)
      (some (.hlist [("Content-Type", "application/octet-stream")]))
      (some (some "#c")) none none,
   .mk (some false) (some "application/pgp-signature") (some 7) (some 1)
      (some (.hlist [("Content-Type", "application/pgp-signature")]))
      (some (some "#sig")) none none]

/-- Witness for C1: both walks of the multipart/signed part list leave the
list intact and agree on their output. -/
theorem walk_msg_tree_idempotent_witness :
    (walk_msg_tree_call msignedParts none).2 = msignedParts ∧
    (walk_msg_tree_call ((walk_msg_tree_call msignedParts none).2) none).1 =
      (walk_msg_tree_call msignedParts none).1 := by
  have hparts : get_parts hfEx sfEx msignedMsg = .ok msignedParts := rfl
  have h := walk_msg_tree_idempotent hfEx sfEx msignedMsg msignedParts none
    hparts
  exact ⟨h.1, h.2.2⟩
